import Mathlib

/-!
Shallow embedding of the numerical kernel of `FD_nonlinear_stiff.py`.

The kernel reads six scalars (λ, α, T, x0, xT, N), builds the uniform grid
`t = np.linspace(0, T, N + 1)` with step `h = T / N`, and fills three
numpy arrays of size `N + 1`:

* `x_back`  — backward (implicit) scheme: `x_back[0] = x0`, `x_back[-1] = xT`,
  then for `i in range(1, N)` a 15-step fixed-point iteration seeded with
  `x_back[i-1]` computing `xi = (x_back[i-1] + h*xi**alpha) / (1 + h*lam)`;
* `x_cent`  — central (symmetric) scheme: `x_cent[0] = x0`, `x_cent[-1] = xT`,
  `x_cent[1] = x0 * exp(-lam*h)`, then for `i in range(1, N)` the write
  `x_cent[i+1] = x_cent[i-1] + 2*h*f(x_cent[i])`;
* `x_forw`  — forward (explicit) scheme: `x_forw[0] = x0`, then for
  `i in range(N)` the write `x_forw[i+1] = x_forw[i] + h*f(x_forw[i])`.

Real arithmetic is modelled over `ℝ`; `x**alpha` is real exponentiation
(`Real.rpow`) and `np.exp` is `Real.exp`.  A numpy array of size `N + 1`
is modelled as a total function `ℕ → ℝ` updated with `Function.update`
(numpy assignment), read off on `List.range (N + 1)` to obtain the
trajectory list.  The in-place update order of the Python loops is kept
exactly: each loop is a left fold over the Python `range` it iterates.
-/

namespace FDStiff

/-- Model parameters from the sidebar: λ, α, T, x0, xT (all Python floats). -/
structure Params where
  lam : ℝ
  alpha : ℝ
  T : ℝ
  x0 : ℝ
  xT : ℝ

/-- Step size `h = T / N` (line 78). -/
noncomputable def h (p : Params) (N : ℕ) : ℝ := p.T / N

/-- Value of the i-th point of `np.linspace(0, T, N + 1)`: `i * (T / N)`. -/
noncomputable def gridVal (p : Params) (N : ℕ) (i : ℕ) : ℝ := (i : ℝ) * (p.T / N)

/-- Grid `t = np.linspace(0, T, N + 1)` (line 79). -/
noncomputable def grid (p : Params) (N : ℕ) : List ℝ :=
  (List.range (N + 1)).map (gridVal p N)

/-- Nonlinear right-hand side `f(x) = -lam * x + x**alpha` (lines 85-86). -/
noncomputable def f (p : Params) (x : ℝ) : ℝ := -p.lam * x + x ^ p.alpha

/-- One application of the backward fixed-point update
`xi = (xprev + h * xi**alpha) / (1 + h * lam)` (line 99). -/
noncomputable def backUpd (p : Params) (hs xprev y : ℝ) : ℝ :=
  (xprev + hs * y ^ p.alpha) / (1 + hs * p.lam)

/-- Iterated backward update: `n` applications starting from the seed `xprev`
(the Python loop seeds `xi = x_back[i - 1]`, lines 97-99). -/
noncomputable def backIter (p : Params) (hs xprev : ℝ) : ℕ → ℝ
  | 0 => xprev
  | n + 1 => backUpd p hs xprev (backIter p hs xprev n)

/-- Array state after the backward loop (lines 92-100), as a function `ℕ → ℝ`:
`np.zeros(N+1)`, then `x_back[0] = x0`, `x_back[-1] = xT`, then the marching
loop `for i in range(1, N)` writing index `i` from index `i - 1`. -/
noncomputable def x_backArr (p : Params) (N : ℕ) : ℕ → ℝ :=
  (List.range' 1 (N - 1)).foldl
    (fun a i => Function.update a i (backIter p (h p N) (a (i - 1)) 15))
    (Function.update (Function.update (fun _ => (0 : ℝ)) 0 p.x0) N p.xT)

/-- Backward trajectory: the `N + 1` entries of the array. -/
noncomputable def x_back (p : Params) (N : ℕ) : List ℝ :=
  (List.range (N + 1)).map (x_backArr p N)

/-- Array state after the central loop (lines 106-112), as a function `ℕ → ℝ`:
`np.zeros(N+1)`, then `x_cent[0] = x0`, `x_cent[-1] = xT`,
`x_cent[1] = x0 * np.exp(-lam * h)`, then `for i in range(1, N)` writing
index `i + 1` from indices `i - 1` and `i`. -/
noncomputable def x_centArr (p : Params) (N : ℕ) : ℕ → ℝ :=
  (List.range' 1 (N - 1)).foldl
    (fun a i => Function.update a (i + 1) (a (i - 1) + 2 * h p N * f p (a i)))
    (Function.update
      (Function.update (Function.update (fun _ => (0 : ℝ)) 0 p.x0) N p.xT)
      1 (p.x0 * Real.exp (-p.lam * h p N)))

/-- Central trajectory: the `N + 1` entries of the array. -/
noncomputable def x_cent (p : Params) (N : ℕ) : List ℝ :=
  (List.range (N + 1)).map (x_centArr p N)

/-- Array state after the forward loop (lines 118-122), as a function `ℕ → ℝ`:
`np.zeros(N+1)`, then `x_forw[0] = x0`, then `for i in range(N)` writing
index `i + 1` from index `i`. -/
noncomputable def x_forwArr (p : Params) (N : ℕ) : ℕ → ℝ :=
  (List.range N).foldl
    (fun a i => Function.update a (i + 1) (a i + h p N * f p (a i)))
    (Function.update (fun _ => (0 : ℝ)) 0 p.x0)

/-- Forward trajectory: the `N + 1` entries of the array. -/
noncomputable def x_forw (p : Params) (N : ℕ) : List ℝ :=
  (List.range (N + 1)).map (x_forwArr p N)

/-- The whole kernel (lines 78-122).  Python raises `ZeroDivisionError` at
`h = T / N` when `N = 0`, before any trajectory is produced; this is the
`none` branch.  Otherwise it returns the grid and the three trajectories. -/
noncomputable def kernel (p : Params) (N : ℕ) :
    Option (List ℝ × List ℝ × List ℝ × List ℝ) :=
  if N = 0 then none
  else some (grid p N, x_back p N, x_cent p N, x_forw p N)

/-- Reference recursion for the backward interior values: entry `i` is 15
backward updates seeded with entry `i - 1`. -/
noncomputable def backVal (p : Params) (hs : ℝ) : ℕ → ℝ
  | 0 => p.x0
  | i + 1 => backIter p hs (backVal p hs i) 15

/-- Reference recursion for the central values: `x0`, the exponential seed,
then the three-point recurrence. -/
noncomputable def centVal (p : Params) (hs : ℝ) : ℕ → ℝ
  | 0 => p.x0
  | 1 => p.x0 * Real.exp (-p.lam * hs)
  | i + 2 => centVal p hs i + 2 * hs * f p (centVal p hs (i + 1))

/-- Reference recursion for the forward values: Euler marching from `x0`. -/
noncomputable def forwVal (p : Params) (hs : ℝ) : ℕ → ℝ
  | 0 => p.x0
  | i + 1 => forwVal p hs i + hs * f p (forwVal p hs i)

/-- Default sidebar values: λ=7.0, α=3.0, T=1.0, x0=0.5, xT=0.0. -/
noncomputable def p0 : Params := ⟨7, 3, 1, 1 / 2, 0⟩

/-- Concrete parameter set used to separate the central trajectory from the
boundary value: λ=0, α=2, T=1, x0=1, xT=0. -/
noncomputable def pcex : Params := ⟨0, 2, 1, 1, 0⟩

/-! ### Entry extraction for the trajectory lists -/

lemma getD_map_range (g : ℕ → ℝ) (n j : ℕ) (hj : j < n) :
    ((List.range n).map g).getD j 0 = g j := by
  have h1 : j < ((List.range n).map g).length := by simpa using hj
  rw [List.getD_eq_getElem _ _ h1]
  simp

lemma x_back_getD_arr (p : Params) (N j : ℕ) (hj : j ≤ N) :
    (x_back p N).getD j 0 = x_backArr p N j :=
  getD_map_range _ _ _ (by omega)

lemma x_cent_getD_arr (p : Params) (N j : ℕ) (hj : j ≤ N) :
    (x_cent p N).getD j 0 = x_centArr p N j :=
  getD_map_range _ _ _ (by omega)

lemma x_forw_getD_arr (p : Params) (N j : ℕ) (hj : j ≤ N) :
    (x_forw p N).getD j 0 = x_forwArr p N j :=
  getD_map_range _ _ _ (by omega)

/-! ### Characterization of the forward fold -/

lemma forwFold_eq (p : Params) (N : ℕ) (k : ℕ) :
    ∀ j ≤ k,
      ((List.range k).foldl
        (fun a i => Function.update a (i + 1) (a i + h p N * f p (a i)))
        (Function.update (fun _ => (0 : ℝ)) 0 p.x0)) j = forwVal p (h p N) j := by
  induction k with
  | zero =>
    intro j hj
    have hj0 : j = 0 := Nat.le_zero.mp hj
    subst hj0
    simp [forwVal]
  | succ k ih =>
    intro j hj
    rw [List.range_succ, List.foldl_append]
    simp only [List.foldl_cons, List.foldl_nil]
    rcases eq_or_ne j (k + 1) with rfl | hne
    · rw [Function.update_same, ih k le_rfl]
      rfl
    · rw [Function.update_noteq hne]
      exact ih j (by omega)

lemma x_forwArr_eq (p : Params) (N : ℕ) (j : ℕ) (hj : j ≤ N) :
    x_forwArr p N j = forwVal p (h p N) j :=
  forwFold_eq p N N j hj

/-! ### Characterization of the backward fold -/

lemma backFold_eq (p : Params) (N : ℕ) (hN : 1 ≤ N) (k : ℕ) (hk : k ≤ N - 1) :
    (∀ j ≤ k,
      ((List.range' 1 k).foldl
        (fun a i => Function.update a i (backIter p (h p N) (a (i - 1)) 15))
        (Function.update (Function.update (fun _ => (0 : ℝ)) 0 p.x0) N p.xT)) j
        = backVal p (h p N) j) ∧
    ((List.range' 1 k).foldl
        (fun a i => Function.update a i (backIter p (h p N) (a (i - 1)) 15))
        (Function.update (Function.update (fun _ => (0 : ℝ)) 0 p.x0) N p.xT)) N
      = p.xT := by
  induction k with
  | zero =>
    constructor
    · intro j hj
      have hj0 : j = 0 := Nat.le_zero.mp hj
      subst hj0
      simp only [List.range'_zero, List.foldl_nil]
      rw [Function.update_noteq (by omega), Function.update_same]
      rfl
    · simp only [List.range'_zero, List.foldl_nil]
      rw [Function.update_same]
  | succ k ih =>
    have hk' : k ≤ N - 1 := by omega
    obtain ⟨ih1, ih2⟩ := ih hk'
    rw [List.range'_1_concat]
    constructor
    · intro j hj
      rw [List.foldl_append]
      simp only [List.foldl_cons, List.foldl_nil]
      rcases eq_or_ne j (1 + k) with rfl | hne
      · rw [Function.update_same]
        have hread : 1 + k - 1 = k := by omega
        rw [hread, ih1 k le_rfl]
        have hjk : 1 + k = k + 1 := by omega
        rw [hjk]
        rfl
      · rw [Function.update_noteq hne]
        exact ih1 j (by omega)
    · rw [List.foldl_append]
      simp only [List.foldl_cons, List.foldl_nil]
      rw [Function.update_noteq (by omega)]
      exact ih2

lemma x_backArr_interior (p : Params) (N : ℕ) (hN : 1 ≤ N) (j : ℕ)
    (hj : j ≤ N - 1) :
    x_backArr p N j = backVal p (h p N) j :=
  (backFold_eq p N hN (N - 1) le_rfl).1 j hj

lemma x_backArr_last (p : Params) (N : ℕ) (hN : 1 ≤ N) :
    x_backArr p N N = p.xT :=
  (backFold_eq p N hN (N - 1) le_rfl).2

/-! ### Characterization of the central fold -/

lemma centFold_eq (p : Params) (N : ℕ) (hN : 1 ≤ N) (k : ℕ) :
    ∀ j ≤ k + 1,
      ((List.range' 1 k).foldl
        (fun a i => Function.update a (i + 1) (a (i - 1) + 2 * h p N * f p (a i)))
        (Function.update
          (Function.update (Function.update (fun _ => (0 : ℝ)) 0 p.x0) N p.xT)
          1 (p.x0 * Real.exp (-p.lam * h p N)))) j = centVal p (h p N) j := by
  induction k with
  | zero =>
    intro j hj
    simp only [List.range'_zero, List.foldl_nil]
    interval_cases j
    · rw [Function.update_noteq (by omega), Function.update_noteq (by omega),
        Function.update_same]
      rfl
    · rw [Function.update_same]
      rfl
  | succ k ih =>
    intro j hj
    rw [List.range'_1_concat, List.foldl_append]
    simp only [List.foldl_cons, List.foldl_nil]
    rcases eq_or_ne j (1 + k + 1) with rfl | hne
    · rw [Function.update_same]
      have hr1 : 1 + k - 1 = k := by omega
      rw [hr1, ih k (by omega)]
      have hr2 : (1 + k : ℕ) = k + 1 := by omega
      rw [hr2, ih (k + 1) le_rfl]
      rfl
    · rw [Function.update_noteq hne]
      exact ih j (by omega)

lemma x_centArr_eq (p : Params) (N : ℕ) (hN : 1 ≤ N) (j : ℕ) (hj : j ≤ N) :
    x_centArr p N j = centVal p (h p N) j := by
  have hfold := centFold_eq p N hN (N - 1) j (by omega)
  exact hfold

/-! ### Derived helper lemmas -/

lemma backVal_succ (p : Params) (hs : ℝ) (i : ℕ) :
    backVal p hs (i + 1) = backIter p hs (backVal p hs i) 15 := rfl

lemma Params_ext (p q : Params) (h1 : p.lam = q.lam) (h2 : p.alpha = q.alpha)
    (h3 : p.T = q.T) (h4 : p.x0 = q.x0) (h5 : p.xT = q.xT) : p = q := by
  cases p
  cases q
  simp_all

lemma x_forwArr_congr (p q : Params) (N : ℕ) (h1 : q.lam = p.lam)
    (h2 : q.alpha = p.alpha) (h3 : q.T = p.T) (h4 : q.x0 = p.x0) :
    x_forwArr q N = x_forwArr p N := by
  simp only [x_forwArr, h, f, h1, h2, h3, h4]

lemma grid_getD (p : Params) (N j : ℕ) (hj : j ≤ N) :
    (grid p N).getD j 0 = gridVal p N j :=
  getD_map_range _ _ _ (by omega)

lemma gridVal_last (p : Params) (N : ℕ) (hN : 1 ≤ N) :
    gridVal p N N = p.T := by
  rw [gridVal, mul_comm]
  refine div_mul_cancel₀ p.T ?_
  exact_mod_cast Nat.one_le_iff_ne_zero.mp hN

lemma gridVal_strictMono (p : Params) (N : ℕ) (hT : 0 < p.T) (hN : 1 ≤ N)
    (i j : ℕ) (hij : i < j) : gridVal p N i < gridVal p N j := by
  have hdiv : 0 < p.T / N := by
    apply div_pos hT
    exact_mod_cast hN
  exact mul_lt_mul_of_pos_right (by exact_mod_cast hij) hdiv

/-! ### Claim theorems -/

/-- Claim C1 (amended): for every valid parameter set and N ≥ 1 the backward
trajectory pins both endpoints, trajectory[0] = x0 and trajectory[N] = xT,
and the central trajectory pins trajectory[0] = x0; but in the central scheme
the assignment of xT to index N happens before the recurrence, whose final
iteration overwrites index N, so for N ≥ 2 the central trajectory[N] is the
computed recurrence value trajectory[N-2] + 2h·f(trajectory[N-1]), not xT. -/
theorem C1_endpoints (p : Params) (N : ℕ) (hT : 0 < p.T) (hN : 1 ≤ N) :
    (x_back p N).getD 0 0 = p.x0 ∧ (x_back p N).getD N 0 = p.xT ∧
    (x_cent p N).getD 0 0 = p.x0 ∧
    (2 ≤ N → (x_cent p N).getD N 0 =
      (x_cent p N).getD (N - 2) 0 + 2 * h p N * f p ((x_cent p N).getD (N - 1) 0)) := by
  refine ⟨?_, ?_, ?_, ?_⟩
  · rw [x_back_getD_arr p N 0 (by omega), x_backArr_interior p N hN 0 (by omega)]
    rfl
  · rw [x_back_getD_arr p N N le_rfl]
    exact x_backArr_last p N hN
  · rw [x_cent_getD_arr p N 0 (by omega), x_centArr_eq p N hN 0 (by omega)]
    rfl
  · intro hN2
    obtain ⟨m, rfl⟩ : ∃ m, N = m + 2 := ⟨N - 2, by omega⟩
    rw [x_cent_getD_arr p (m + 2) (m + 2) le_rfl,
      x_cent_getD_arr p (m + 2) (m + 2 - 2) (by omega),
      x_cent_getD_arr p (m + 2) (m + 2 - 1) (by omega),
      x_centArr_eq p (m + 2) hN (m + 2) le_rfl,
      x_centArr_eq p (m + 2) hN (m + 2 - 2) (by omega),
      x_centArr_eq p (m + 2) hN (m + 2 - 1) (by omega)]
    have e1 : m + 2 - 2 = m := by omega
    have e2 : m + 2 - 1 = m + 1 := by omega
    rw [e1, e2]
    rfl

/-- Claim C1, counterexample to the claim as stated: with λ=0, α=2, T=1,
x0=1, xT=0 and N=2 the central trajectory ends at 2, not at xT = 0: the
recurrence overwrites the boundary value written at index N before the loop. -/
theorem C1_counterexample : (x_cent pcex 2).getD 2 0 ≠ pcex.xT := by
  rw [x_cent_getD_arr pcex 2 2 le_rfl, x_centArr_eq pcex 2 (by omega) 2 le_rfl]
  show centVal pcex (h pcex 2) 2 ≠ pcex.xT
  simp only [centVal, f, h, pcex]
  norm_num [Real.one_rpow]

/-- Claim C1 witness at the default parameters with N = 2. -/
theorem C1_endpoints_witness :
    (0 : ℝ) < p0.T ∧ (1 : ℕ) ≤ 2 ∧
    ((x_back p0 2).getD 0 0 = p0.x0 ∧ (x_back p0 2).getD 2 0 = p0.xT ∧
     (x_cent p0 2).getD 0 0 = p0.x0 ∧
     (2 ≤ 2 → (x_cent p0 2).getD 2 0 =
       (x_cent p0 2).getD (2 - 2) 0 + 2 * h p0 2 * f p0 ((x_cent p0 2).getD (2 - 1) 0))) :=
  ⟨by norm_num [p0], by norm_num, C1_endpoints p0 2 (by norm_num [p0]) (by norm_num)⟩

/-- Claim C2: each interior entry i = 1..N-1 of the backward trajectory is
exactly 15 applications of y ↦ (x[i-1] + h·y^α)/(1 + h·λ) seeded with the
previously finalized entry x[i-1]; nothing alters this value afterwards. -/
theorem C2_back_interior (p : Params) (N : ℕ) (hN : 1 ≤ N) :
    ∀ i, 1 ≤ i → i ≤ N - 1 →
      (x_back p N).getD i 0 =
        backIter p (h p N) ((x_back p N).getD (i - 1) 0) 15 := by
  intro i hi1 hi2
  obtain ⟨m, rfl⟩ : ∃ m, i = m + 1 := ⟨i - 1, by omega⟩
  rw [x_back_getD_arr p N (m + 1) (by omega),
    x_back_getD_arr p N (m + 1 - 1) (by omega),
    x_backArr_interior p N hN (m + 1) hi2,
    x_backArr_interior p N hN (m + 1 - 1) (by omega)]
  have e1 : m + 1 - 1 = m := by omega
  rw [e1]
  exact backVal_succ p (h p N) m

/-- Claim C2 witness: default parameters, N = 3, interior index i = 1. -/
theorem C2_back_interior_witness :
    (x_back p0 3).getD 1 0 =
      backIter p0 (h p0 3) ((x_back p0 3).getD 0 0) 15 :=
  C2_back_interior p0 3 (by norm_num) 1 le_rfl (by norm_num)

/-- Claim C3: the central trajectory satisfies trajectory[1] = x0·exp(−λh)
(assigned directly, never overwritten) and, for i = 1..N−1,
trajectory[i+1] = trajectory[i−1] + 2h·f(trajectory[i]). -/
theorem C3_cent_seed_recurrence (p : Params) (N : ℕ) (hT : 0 < p.T) (hN : 1 ≤ N) :
    (x_cent p N).getD 1 0 = p.x0 * Real.exp (-p.lam * h p N) ∧
    ∀ i, 1 ≤ i → i ≤ N - 1 →
      (x_cent p N).getD (i + 1) 0 =
        (x_cent p N).getD (i - 1) 0 + 2 * h p N * f p ((x_cent p N).getD i 0) := by
  constructor
  · rw [x_cent_getD_arr p N 1 hN, x_centArr_eq p N hN 1 hN]
    rfl
  · intro i hi1 hi2
    obtain ⟨m, rfl⟩ : ∃ m, i = m + 1 := ⟨i - 1, by omega⟩
    rw [x_cent_getD_arr p N (m + 1 + 1) (by omega),
      x_cent_getD_arr p N (m + 1 - 1) (by omega),
      x_cent_getD_arr p N (m + 1) (by omega),
      x_centArr_eq p N hN (m + 1 + 1) (by omega),
      x_centArr_eq p N hN (m + 1 - 1) (by omega),
      x_centArr_eq p N hN (m + 1) (by omega)]
    have e1 : m + 1 - 1 = m := by omega
    rw [e1]
    rfl

/-- Claim C3 witness: default parameters, N = 3, i = 1. -/
theorem C3_cent_seed_recurrence_witness :
    (x_cent p0 3).getD 1 0 = p0.x0 * Real.exp (-p0.lam * h p0 3) ∧
    (x_cent p0 3).getD 2 0 =
      (x_cent p0 3).getD 0 0 + 2 * h p0 3 * f p0 ((x_cent p0 3).getD 1 0) :=
  ⟨(C3_cent_seed_recurrence p0 3 (by norm_num [p0]) (by norm_num)).1,
   (C3_cent_seed_recurrence p0 3 (by norm_num [p0]) (by norm_num)).2 1 le_rfl (by norm_num)⟩

/-- Claim C4: the forward trajectory starts at x0 and marches
trajectory[i+1] = trajectory[i] + h·f(trajectory[i]) for i = 0..N−1, and it
does not depend on xT: any parameter set agreeing on λ, α, T, x0 yields the
identical forward trajectory. -/
theorem C4_forward (p : Params) (N : ℕ) (hN : 1 ≤ N) :
    (x_forw p N).getD 0 0 = p.x0 ∧
    (∀ i, i < N → (x_forw p N).getD (i + 1) 0 =
      (x_forw p N).getD i 0 + h p N * f p ((x_forw p N).getD i 0)) ∧
    ∀ q : Params, q.lam = p.lam → q.alpha = p.alpha → q.T = p.T → q.x0 = p.x0 →
      x_forw q N = x_forw p N := by
  refine ⟨?_, ?_, ?_⟩
  · rw [x_forw_getD_arr p N 0 (by omega), x_forwArr_eq p N 0 (by omega)]
    rfl
  · intro i hi
    rw [x_forw_getD_arr p N (i + 1) (by omega),
      x_forw_getD_arr p N i (by omega),
      x_forwArr_eq p N (i + 1) (by omega),
      x_forwArr_eq p N i (by omega)]
    rfl
  · intro q h1 h2 h3 h4
    unfold x_forw
    rw [x_forwArr_congr p q N h1 h2 h3 h4]

/-- Claim C4 witness: default parameters with N = 2. -/
theorem C4_forward_witness :
    (x_forw p0 2).getD 0 0 = p0.x0 ∧
    (∀ i, i < 2 → (x_forw p0 2).getD (i + 1) 0 =
      (x_forw p0 2).getD i 0 + h p0 2 * f p0 ((x_forw p0 2).getD i 0)) ∧
    ∀ q : Params, q.lam = p0.lam → q.alpha = p0.alpha → q.T = p0.T → q.x0 = p0.x0 →
      x_forw q 2 = x_forw p0 2 :=
  C4_forward p0 2 (by norm_num)

/-- Claim C5: all three trajectories, like the grid, have exactly N+1
entries. -/
theorem C5_lengths (p : Params) (N : ℕ) (hN : 1 ≤ N) :
    (x_back p N).length = N + 1 ∧ (x_cent p N).length = N + 1 ∧
    (x_forw p N).length = N + 1 ∧ (grid p N).length = N + 1 := by
  refine ⟨?_, ?_, ?_, ?_⟩ <;> simp [x_back, x_cent, x_forw, grid]

/-- Claim C5 witness: default parameters with N = 2. -/
theorem C5_lengths_witness :
    (x_back p0 2).length = 3 ∧ (x_cent p0 2).length = 3 ∧
    (x_forw p0 2).length = 3 ∧ (grid p0 2).length = 3 :=
  C5_lengths p0 2 (by norm_num)

/-- Claim C6: the grid starts at 0, ends exactly at T, has spacing exactly
h = T/N between consecutive points, and is strictly increasing. -/
theorem C6_grid (p : Params) (N : ℕ) (hT : 0 < p.T) (hN : 1 ≤ N) :
    (grid p N).getD 0 0 = 0 ∧
    (grid p N).getD N 0 = p.T ∧
    (∀ i, i < N → (grid p N).getD (i + 1) 0 - (grid p N).getD i 0 = h p N) ∧
    (∀ i j, i < j → j ≤ N → (grid p N).getD i 0 < (grid p N).getD j 0) := by
  refine ⟨?_, ?_, ?_, ?_⟩
  · rw [grid_getD p N 0 (by omega)]
    simp [gridVal]
  · rw [grid_getD p N N le_rfl]
    exact gridVal_last p N hN
  · intro i hi
    rw [grid_getD p N (i + 1) (by omega), grid_getD p N i (by omega)]
    simp only [gridVal, h]
    push_cast
    ring
  · intro i j hij hjN
    rw [grid_getD p N i (by omega), grid_getD p N j hjN]
    exact gridVal_strictMono p N hT hN i j hij

/-- Claim C6 witness: T = 1 (default parameters) with N = 2. -/
theorem C6_grid_witness :
    (grid p0 2).getD 0 0 = 0 ∧
    (grid p0 2).getD 2 0 = p0.T ∧
    (∀ i, i < 2 → (grid p0 2).getD (i + 1) 0 - (grid p0 2).getD i 0 = h p0 2) ∧
    (∀ i j, i < j → j ≤ 2 → (grid p0 2).getD i 0 < (grid p0 2).getD j 0) :=
  C6_grid p0 2 (by norm_num [p0]) (by norm_num)

/-- Claim C7: the kernel is a pure function of the six scalars — two
invocations on fieldwise-identical parameters return identical grids and
identical backward, central, and forward trajectories. -/
theorem C7_deterministic (p q : Params) (N : ℕ)
    (h1 : p.lam = q.lam) (h2 : p.alpha = q.alpha) (h3 : p.T = q.T)
    (h4 : p.x0 = q.x0) (h5 : p.xT = q.xT) :
    kernel p N = kernel q N := by
  rw [Params_ext p q h1 h2 h3 h4 h5]

/-- Claim C7 witness: two invocations at the default parameters agree. -/
theorem C7_deterministic_witness : kernel p0 200 = kernel p0 200 :=
  C7_deterministic p0 p0 200 rfl rfl rfl rfl rfl

/-- Claim C8: with N = 0 the kernel fails at h = T/N (ZeroDivisionError)
before producing any trajectory; for every N ≥ 1 it succeeds. -/
theorem C8_n_zero (p : Params) :
    kernel p 0 = none ∧ ∀ N, 1 ≤ N → (kernel p N).isSome = true := by
  constructor
  · simp [kernel]
  · intro N hN
    simp [kernel, Nat.one_le_iff_ne_zero.mp hN]

/-- Claim C8 witness: default parameters, N = 0 fails and N = 3 succeeds. -/
theorem C8_n_zero_witness :
    kernel p0 0 = none ∧ (kernel p0 3).isSome = true :=
  ⟨(C8_n_zero p0).1, (C8_n_zero p0).2 3 (by norm_num)⟩

/-- Claim C10: when N = 1 the central trajectory ends with the exponential
seed x0·exp(−λh) at index 1 — the seed assignment runs after the xT
assignment and the recurrence loop body never runs — and in general this
differs from xT, as at λ=0, α=2, T=1, x0=1, xT=0. -/
theorem C10_cent_last_N1 :
    (∀ p : Params, (x_cent p 1).getD 1 0 = p.x0 * Real.exp (-p.lam * h p 1)) ∧
    (x_cent pcex 1).getD 1 0 ≠ pcex.xT := by
  have hseed : ∀ p : Params, (x_cent p 1).getD 1 0 = p.x0 * Real.exp (-p.lam * h p 1) := by
    intro p
    rw [x_cent_getD_arr p 1 1 le_rfl, x_centArr_eq p 1 le_rfl 1 le_rfl]
    rfl
  refine ⟨hseed, ?_⟩
  rw [hseed pcex]
  simp only [pcex, h]
  norm_num
